import Mathlib

/-!
Shallow embedding of `fetch_biosample_metadata.py`: a batch tool that
resolves assembly/nucleotide accessions to BioSample records via three
remote calls (esearch, elink, efetch), filters record attributes through a
fixed allow-list, accumulates one attribute mapping per successful
accession, and writes the accumulated mappings as a TSV table.

Remote calls are modelled as environment data: every call either raises
(`Except.error ()`, a transport/protocol failure or any other exception
caught by the per-attempt `try`) or returns a parsed response value.
Python dicts are modelled as association lists with no duplicate keys:
assignment updates the first matching binding in place or appends.
-/

namespace BioFetch

/-- A Python dict of string attributes, as built by the script: an
association list where assignment keeps insertion order. -/
abbrev AttrDict := List (String × String)

/-- Python dict assignment `d[k] = v`: replace the binding of `k` in place
if present, otherwise append the new binding at the end. -/
def dinsert : AttrDict → String → String → AttrDict
  | [], k, v => [(k, v)]
  | (k1, v1) :: rest, k, v =>
      if k1 = k then (k, v) :: rest else (k1, v1) :: dinsert rest k v

/-- Python dict lookup `d[k]` / `d.get(k)`: first binding of `k`. -/
def dlookup : AttrDict → String → Option String
  | [], _ => none
  | (k1, v1) :: rest, k => if k1 = k then some v1 else dlookup rest k

/-- `d.keys()`. -/
def keysOf (d : AttrDict) : List String := d.map Prod.fst

/-- `KNOWN_ATTRIBUTES`: the fixed allow-list of BioSample attribute names
(lines 26-36 of the source). -/
def KNOWN_ATTRIBUTES : List String :=
  ["strain", "collection_date", "depth", "env_broad_scale",
   "env_local_scale", "env_medium", "geo_loc_name", "isol_growth_condt",
   "lat_lon", "num_replicons", "ref_biomaterial", "type-material",
   "isolation_source", "collected_by", "host", "tissue", "age",
   "sex", "dev_stage", "biomaterial_provider", "culture_collection",
   "specimen_voucher", "cultivar", "ecotype", "isolate", "sub_strain",
   "cell_line", "cell_type", "serovar", "serotype", "pathovar",
   "genotype", "phenotype", "note", "temp", "altitude", "sample_type",
   "BioSampleModel", "organism"]

/-- One entry of a BioSample record's `Attributes` list; either dict key
may be absent (`attr.get('attribute_name', 'unknown')`,
`attr.get('content', '')`). -/
structure BioAttr where
  attribute_name : Option String
  content : Option String
deriving DecidableEq, Repr

/-- One parsed BioSample record from `Entrez.read` of an efetch response;
the `Accession` and `Attributes` keys may each be absent. -/
structure BioSampleRecord where
  Accession : Option String
  Attributes : Option (List BioAttr)
deriving DecidableEq, Repr

/-- `attr.get('attribute_name', 'unknown')` (line 66). -/
def attr_name (attr : BioAttr) : String := attr.attribute_name.getD "unknown"

/-- `attr.get('content', '')` (line 67). -/
def attr_value (attr : BioAttr) : String := attr.content.getD ""

/-- The filter of line 68: the attribute's name is allow-listed or is
literally `biosample_accession`. -/
def attr_allowed (attr : BioAttr) : Prop :=
  attr_name attr ∈ KNOWN_ATTRIBUTES ∨ attr_name attr = "biosample_accession"

instance (attr : BioAttr) : Decidable (attr_allowed attr) := by
  unfold attr_allowed
  infer_instance

/-- The attribute-copying step of `fetch_biosample_record`
(lines 64-69): fold the response's attribute list into the dict,
keeping only allow-listed names (or the literal `biosample_accession`),
a missing name defaulting to `unknown`. -/
def copyAttr (d : AttrDict) (attr : BioAttr) : AttrDict :=
  if attr_allowed attr then dinsert d (attr_name attr) (attr_value attr)
  else d

/-- `fetch_biosample_record` (lines 39-71), applied to the parsed efetch
response list: `None` when the response list is empty, otherwise the
filtered attribute dict of the first record (the `Accession` field first,
then the allow-listed attributes). -/
def fetch_biosample_record (biosample_records : List BioSampleRecord) :
    Option AttrDict :=
  match biosample_records with
  | [] => none
  | biosample_record :: _ =>
    let attributes : AttrDict := []
    let attributes :=
      match biosample_record.Accession with
      | some acc => dinsert attributes "biosample_accession" acc
      | none => attributes
    let attributes :=
      match biosample_record.Attributes with
      | some attrs => attrs.foldl copyAttr attributes
      | none => attributes
    some attributes

/-- The attribute list of a record, an absent `Attributes` key reading as
empty. -/
def attrsOf (r : BioSampleRecord) : List BioAttr := r.Attributes.getD []

/-- One `Link` entry of an elink response (`{'Id': ...}`). -/
structure LinkItem where
  Id : String
deriving DecidableEq, Repr

/-- One `LinkSetDb` entry of an elink response. -/
structure LinkSet where
  Link : List LinkItem
deriving DecidableEq, Repr

/-- One top-level entry of a parsed elink response. -/
structure LinkSetEntry where
  LinkSetDb : List LinkSet
deriving DecidableEq, Repr

/-- A parsed esearch response (`record['IdList']`). -/
structure SearchRecord where
  IdList : List String
deriving DecidableEq, Repr

/-- The remote responses seen by one attempt of the per-accession loop:
each of the three Entrez calls either raises (`Except.error ()`) or
returns its parsed response. -/
structure AttemptEnv where
  esearch : Except Unit SearchRecord
  elink : String → Except Unit (List LinkSetEntry)
  efetch : String → Except Unit (List BioSampleRecord)

/-- The body of one attempt of `fetch_biosample_from_assembly`
(lines 87-109): esearch, first id, elink, first link, efetch + parse.
`Except.error ()` is any raised exception (transport failure from a call,
or an IndexError from indexing an empty elink list), caught by the
`except` clause; `Except.ok none` is a defined not-found return;
`Except.ok (some d)` is a returned attribute dict. -/
def attempt_once (env : AttemptEnv) : Except Unit (Option AttrDict) :=
  match env.esearch with
  | Except.error e => Except.error e
  | Except.ok record =>
    match record.IdList with
    | [] => Except.ok none
    | assembly_id :: _ =>
      match env.elink assembly_id with
      | Except.error e => Except.error e
      | Except.ok link_record =>
        match link_record with
        | [] => Except.error ()
        | entry :: _ =>
          match entry.LinkSetDb with
          | [] => Except.ok none
          | linkset :: _ =>
            match linkset.Link with
            | [] => Except.error ()
            | link :: _ =>
              match env.efetch link.Id with
              | Except.error e => Except.error e
              | Except.ok records =>
                  Except.ok (fetch_biosample_record records)

/-- The retry loop `for attempt in range(1, max_retries + 1)` of
`fetch_biosample_from_assembly` (lines 85-119), with `remaining` the
number of attempts left: a raised attempt retries with the next attempt's
environment, a returned attempt (dict or not-found `none`) is final, and
exhausting the attempts yields `none`. -/
def fetch_tries (env : Nat → AttemptEnv) : Nat → Nat → Option AttrDict
  | _, 0 => none
  | attempt, remaining + 1 =>
    match attempt_once (env attempt) with
    | Except.ok r => r
    | Except.error _ => fetch_tries env (attempt + 1) remaining

/-- `fetch_biosample_from_assembly` (lines 74-119): run the retry loop
from attempt 1 with up to `max_retries` attempts (default 3). -/
def fetch_biosample_from_assembly (env : Nat → AttemptEnv)
    (max_retries : Nat := 3) : Option AttrDict :=
  fetch_tries env 1 max_retries

/-- The body of one attempt of `fetch_biosample_from_nucleotide`
(lines 135-156); the source duplicates the assembly body verbatim apart
from the queried collection names and log strings, which live in the
environment here. -/
def attempt_once_nucleotide (env : AttemptEnv) :
    Except Unit (Option AttrDict) :=
  match env.esearch with
  | Except.error e => Except.error e
  | Except.ok record =>
    match record.IdList with
    | [] => Except.ok none
    | nuc_id :: _ =>
      match env.elink nuc_id with
      | Except.error e => Except.error e
      | Except.ok link_record =>
        match link_record with
        | [] => Except.error ()
        | entry :: _ =>
          match entry.LinkSetDb with
          | [] => Except.ok none
          | linkset :: _ =>
            match linkset.Link with
            | [] => Except.error ()
            | link :: _ =>
              match env.efetch link.Id with
              | Except.error e => Except.error e
              | Except.ok records =>
                  Except.ok (fetch_biosample_record records)

/-- The retry loop of `fetch_biosample_from_nucleotide` (lines 133-166),
duplicated from the assembly flavor as in the source. -/
def fetch_tries_nucleotide (env : Nat → AttemptEnv) :
    Nat → Nat → Option AttrDict
  | _, 0 => none
  | attempt, remaining + 1 =>
    match attempt_once_nucleotide (env attempt) with
    | Except.ok r => r
    | Except.error _ => fetch_tries_nucleotide env (attempt + 1) remaining

/-- `fetch_biosample_from_nucleotide` (lines 122-166). -/
def fetch_biosample_from_nucleotide (env : Nat → AttemptEnv)
    (max_retries : Nat := 3) : Option AttrDict :=
  fetch_tries_nucleotide env 1 max_retries

/-- The mutable state of the batch loop in `main` (lines 282-284). -/
structure RunState where
  all_data : List AttrDict
  successful : Nat
  failed : Nat
deriving DecidableEq, Repr

/-- One iteration of the batch loop in `main` (lines 286-296): a truthy
`metadata` (a dict, and non-empty — Python `if metadata:`) is tagged with
the accession under the source-dependent column and appended; `None` or
an empty dict counts as failed. -/
def process_accession (fetch_fn : String → Option AttrDict)
    (accession_col : String) (st : RunState) (accession : String) :
    RunState :=
  match fetch_fn accession with
  | some metadata =>
    if metadata.isEmpty then
      { st with failed := st.failed + 1 }
    else
      { st with
          all_data := st.all_data ++ [dinsert metadata accession_col accession],
          successful := st.successful + 1 }
  | none => { st with failed := st.failed + 1 }

/-- The whole batch loop of `main` over the accession list. -/
def run_batch (fetch_fn : String → Option AttrDict)
    (accession_col : String) (accessions : List String) : RunState :=
  accessions.foldl (process_accession fetch_fn accession_col) ⟨[], 0, 0⟩

/-- Adding one element to a Python set, modelled as a duplicate-free
list: a member is ignored, a new element is appended. -/
def set_add (ks : List String) (k : String) : List String :=
  if k ∈ ks then ks else ks ++ [k]

/-- `all_keys` of `write_tsv` (lines 217-219): the set of attribute names
across every row (`all_keys.update(row.keys())`). -/
def all_keys (data : List AttrDict) : List String :=
  data.foldl (fun ks row => (keysOf row).foldl set_add ks) []

/-- A kernel-reducible decision procedure for the lexicographic order on
strings, via their character lists. -/
def strLeDec : DecidableRel (fun a b : String => a ≤ b) := fun a b =>
  decidable_of_iff (a.toList ≤ b.toList) String.le_iff_toList_le.symm

/-- `sorted(all_keys)` of `write_tsv` (line 222): the column names in
lexicographic order. -/
def sorted_keys (data : List AttrDict) : List String :=
  @List.insertionSort String (· ≤ ·) strLeDec (all_keys data)

/-- `write_tsv` (lines 204-232): `none` (no file written) on an empty
result set, otherwise the header of sorted unioned column names and one
output row per input dict in order, an absent attribute rendering as ""
(`DictWriter` with `restval=''`). -/
def write_tsv (data : List AttrDict) :
    Option (List String × List (List String)) :=
  if data.isEmpty then none
  else
    let cols := sorted_keys data
    some (cols, data.map (fun row => cols.map fun k => (dlookup row k).getD ""))

/-- The `--db` choice. -/
inductive Db
  | assembly
  | nucleotide
deriving DecidableEq, Repr

/-- The per-accession fetch function chosen in `main` (lines 274-279);
the remote environment is indexed by accession and attempt number. -/
def fetch_fn_of (db : Db) (env : String → Nat → AttemptEnv) :
    String → Option AttrDict :=
  match db with
  | Db.nucleotide => fun acc => fetch_biosample_from_nucleotide (env acc) 3
  | Db.assembly => fun acc => fetch_biosample_from_assembly (env acc) 3

/-- The accession-tag column chosen in `main` (lines 274-279). -/
def accession_col_of (db : Db) : String :=
  match db with
  | Db.nucleotide => "nucleotide_accession"
  | Db.assembly => "assembly_accession"

/-- Python `line.strip()`: remove leading and trailing whitespace. -/
def strip (s : String) : String :=
  String.mk
    (((s.data.dropWhile Char.isWhitespace).reverse.dropWhile
        Char.isWhitespace).reverse)

/-- Reading the input file (line 266): strip each line, drop blanks. -/
def read_accessions (lines : List String) : List String :=
  (lines.map strip).filter (fun l => l ≠ "")

/-- The observable outcome of one `main` run. -/
structure MainOutcome where
  exitCode : Nat
  totalProcessed : Nat
  successful : Nat
  failed : Nat
  written : Option (List String × List (List String))
deriving DecidableEq, Repr

/-- `main` (lines 235-324): an unreadable input file (`fileLines = none`,
the `FileNotFoundError` path, lines 264-269) exits with status 1 before
any accession is processed; otherwise the batch loop runs, the summary is
reached, the table is written when any data was accumulated, and the
process exits 0. -/
def main_model (fileLines : Option (List String)) (db : Db)
    (env : String → Nat → AttemptEnv) : MainOutcome :=
  match fileLines with
  | none =>
      { exitCode := 1, totalProcessed := 0, successful := 0, failed := 0,
        written := none }
  | some lines =>
    let accessions := read_accessions lines
    let st := run_batch (fetch_fn_of db env) (accession_col_of db) accessions
    { exitCode := 0, totalProcessed := accessions.length,
      successful := st.successful, failed := st.failed,
      written := write_tsv st.all_data }

/-! ### Dictionary lemmas -/

theorem keysOf_nil : keysOf [] = [] := rfl

theorem keysOf_cons (p : String × String) (d : AttrDict) :
    keysOf (p :: d) = p.1 :: keysOf d := rfl

theorem dlookup_dinsert (d : AttrDict) (k v k' : String) :
    dlookup (dinsert d k v) k' = if k = k' then some v else dlookup d k' := by
  induction d with
  | nil => simp [dinsert, dlookup]
  | cons p rest ih =>
    obtain ⟨k1, v1⟩ := p
    by_cases h : k1 = k
    · subst h
      simp only [dinsert, if_pos rfl, dlookup]
      by_cases h' : k1 = k'
      · simp [h']
      · simp [h', dlookup]
    · simp only [dinsert, if_neg h, dlookup]
      by_cases h' : k1 = k'
      · have : ¬ k = k' := fun he => h (he ▸ h')
        simp [h', this]
      · simp [h', ih]

theorem mem_keysOf_dinsert (d : AttrDict) (k v a : String) :
    a ∈ keysOf (dinsert d k v) ↔ a = k ∨ a ∈ keysOf d := by
  induction d with
  | nil => simp [dinsert, keysOf]
  | cons p rest ih =>
    obtain ⟨k1, v1⟩ := p
    by_cases h : k1 = k
    · subst h
      rw [show dinsert ((k1, v1) :: rest) k1 v = (k1, v) :: rest from by
        simp [dinsert]]
      simp only [keysOf_cons, List.mem_cons]
      tauto
    · simp only [dinsert, if_neg h, keysOf_cons, List.mem_cons, ih]
      tauto

theorem dinsert_of_not_mem (d : AttrDict) (k v : String)
    (h : k ∉ keysOf d) : dinsert d k v = d ++ [(k, v)] := by
  induction d with
  | nil => simp [dinsert]
  | cons p rest ih =>
    obtain ⟨k1, v1⟩ := p
    simp only [keysOf_cons, List.mem_cons] at h
    push_neg at h
    have hne : k1 ≠ k := fun he => h.1 he.symm
    simp only [dinsert, if_neg hne, List.cons_append, List.cons.injEq,
      true_and]
    exact ih h.2

/-! ### Record fetcher lemmas -/

theorem keysOf_copyAttr_foldl (attrs : List BioAttr) (d0 : AttrDict)
    (k : String) :
    k ∈ keysOf (attrs.foldl copyAttr d0) ↔
      k ∈ keysOf d0 ∨ ∃ a ∈ attrs, attr_allowed a ∧ attr_name a = k := by
  induction attrs generalizing d0 with
  | nil => simp
  | cons a as ih =>
    simp only [List.foldl_cons, ih, List.exists_mem_cons_iff]
    unfold copyAttr
    by_cases h : attr_allowed a
    · simp only [if_pos h, mem_keysOf_dinsert]
      constructor
      · rintro ((he | hk) | hex)
        · exact Or.inr (Or.inl ⟨h, he.symm⟩)
        · exact Or.inl hk
        · exact Or.inr (Or.inr hex)
      · rintro (hk | (⟨_, he⟩ | hex))
        · exact Or.inl (Or.inr hk)
        · exact Or.inl (Or.inl he.symm)
        · exact Or.inr hex
    · simp only [if_neg h]
      tauto

theorem find?_concat {α : Type} (l : List α) (x : α) (p : α → Bool) :
    (l ++ [x]).find? p =
      match l.find? p with
      | some b => some b
      | none => if p x then some x else none := by
  induction l with
  | nil =>
    simp only [List.nil_append, List.find?]
    split <;> simp_all
  | cons a as ih =>
    simp only [List.cons_append, List.find?]
    split <;> simp_all

theorem dlookup_copyAttr_foldl (attrs : List BioAttr) (d0 : AttrDict)
    (k : String) :
    dlookup (attrs.foldl copyAttr d0) k =
      match attrs.reverse.find?
          (fun a => decide (attr_allowed a) && (attr_name a == k)) with
      | some a => some (attr_value a)
      | none => dlookup d0 k := by
  induction attrs generalizing d0 with
  | nil => simp
  | cons a as ih =>
    simp only [List.foldl_cons, ih, List.reverse_cons, find?_concat]
    cases hfind : as.reverse.find?
        (fun a => decide (attr_allowed a) && (attr_name a == k)) with
    | some b => simp
    | none =>
      unfold copyAttr
      by_cases h : attr_allowed a
      · by_cases hk : attr_name a = k
        · simp [h, hk, dlookup_dinsert]
        · simp [h, hk, dlookup_dinsert]
      · simp [h]

/-- The dict the `Accession` step of `fetch_biosample_record` builds
before the attribute loop runs. -/
def baseOf (r : BioSampleRecord) : AttrDict :=
  match r.Accession with
  | some acc => [("biosample_accession", acc)]
  | none => []

/-- Normal form of the fetcher on a non-empty response: the attribute
fold over the `Accession`-seeded dict. -/
theorem fetch_biosample_record_cons (r : BioSampleRecord)
    (rest : List BioSampleRecord) :
    fetch_biosample_record (r :: rest) =
      some ((attrsOf r).foldl copyAttr (baseOf r)) := by
  cases hacc : r.Accession <;> cases hattrs : r.Attributes <;>
    simp [fetch_biosample_record, attrsOf, baseOf, hacc, hattrs, dinsert]

theorem mem_keysOf_baseOf (r : BioSampleRecord) (k : String) :
    k ∈ keysOf (baseOf r) ↔ k = "biosample_accession" ∧ r.Accession.isSome := by
  cases hacc : r.Accession <;> simp [baseOf, hacc, keysOf]

/-- Applied to a non-empty response, the fetcher returns a dict whose key
set is exactly: `biosample_accession` when the record's `Accession` field
is present, together with the names of the allow-listed attributes. -/
theorem mem_keysOf_fetch_record (r : BioSampleRecord)
    (rest : List BioSampleRecord) (d : AttrDict)
    (hd : fetch_biosample_record (r :: rest) = some d) (k : String) :
    k ∈ keysOf d ↔
      (k = "biosample_accession" ∧ r.Accession.isSome) ∨
        ∃ a ∈ attrsOf r, attr_allowed a ∧ attr_name a = k := by
  rw [fetch_biosample_record_cons] at hd
  cases hd
  rw [keysOf_copyAttr_foldl, mem_keysOf_baseOf]

/-- Every key of a fetched dict is allow-listed or is
`biosample_accession`. -/
theorem fetch_record_keys_allowed (recs : List BioSampleRecord)
    (d : AttrDict) (hd : fetch_biosample_record recs = some d) (k : String)
    (hk : k ∈ keysOf d) :
    k ∈ KNOWN_ATTRIBUTES ∨ k = "biosample_accession" := by
  cases recs with
  | nil => cases hd
  | cons r rest =>
    rcases (mem_keysOf_fetch_record r rest d hd k).mp hk with
      ⟨he, _⟩ | ⟨a, _, hall, hn⟩
    · exact Or.inr he
    · rcases hall with h | h
      · exact Or.inl (hn ▸ h)
      · exact Or.inr (hn ▸ h)

/-! ### Resolver and retry-loop lemmas -/

/-- A dict returned by one attempt always comes out of
`fetch_biosample_record` applied to some efetch response. -/
theorem attempt_once_ok_dict (e : AttemptEnv) (d : AttrDict)
    (h : attempt_once e = Except.ok (some d)) :
    ∃ recs, fetch_biosample_record recs = some d := by
  unfold attempt_once at h
  cases hs : e.esearch with
  | error e1 => simp only [hs] at h; exact Except.noConfusion h
  | ok record =>
  simp only [hs] at h
  cases hl : record.IdList with
  | nil =>
    simp only [hl] at h
    injection h with h
    exact Option.noConfusion h
  | cons id1 ids =>
  simp only [hl] at h
  cases he : e.elink id1 with
  | error e2 => simp only [he] at h; exact Except.noConfusion h
  | ok link_record =>
  simp only [he] at h
  cases link_record with
  | nil => simp at h
  | cons entry entries =>
  cases hdb : entry.LinkSetDb with
  | nil =>
    simp only [hdb] at h
    injection h with h
    exact Option.noConfusion h
  | cons linkset linksets =>
  simp only [hdb] at h
  cases hlk : linkset.Link with
  | nil => simp only [hlk] at h; exact Except.noConfusion h
  | cons link links =>
  simp only [hlk] at h
  cases hf : e.efetch link.Id with
  | error e3 => simp only [hf] at h; exact Except.noConfusion h
  | ok records =>
  simp only [hf] at h
  injection h with h
  exact ⟨records, h⟩

/-- The duplicated nucleotide attempt body is the same function as the
assembly attempt body. -/
theorem attempt_once_nucleotide_eq : attempt_once_nucleotide = attempt_once :=
  rfl

/-- The duplicated nucleotide retry loop is the same function as the
assembly retry loop. -/
theorem fetch_tries_nucleotide_eq (env : Nat → AttemptEnv) (a n : Nat) :
    fetch_tries_nucleotide env a n = fetch_tries env a n := by
  induction n generalizing a with
  | zero => rfl
  | succ m ih =>
    rw [fetch_tries_nucleotide, fetch_tries, attempt_once_nucleotide_eq]
    cases attempt_once (env a) with
    | ok r => rfl
    | error e' => exact ih (a + 1)

theorem fetch_tries_some_fetch (env : Nat → AttemptEnv) (a n : Nat)
    (d : AttrDict) (h : fetch_tries env a n = some d) :
    ∃ recs, fetch_biosample_record recs = some d := by
  induction n generalizing a with
  | zero => cases h
  | succ m ih =>
    rw [fetch_tries] at h
    cases he : attempt_once (env a) with
    | ok r =>
      rw [he] at h
      exact attempt_once_ok_dict (env a) d (h ▸ he)
    | error e' =>
      rw [he] at h
      exact ih (a + 1) h

/-- A returned (non-raising) first attempt is final: the loop yields its
value no matter how many attempts remain. -/
theorem fetch_tries_of_ok (env : Nat → AttemptEnv) (a n : Nat)
    (r : Option AttrDict) (hn : 0 < n) (h : attempt_once (env a) = Except.ok r) :
    fetch_tries env a n = r := by
  cases n with
  | zero => omega
  | succ m => rw [fetch_tries, h]

/-- Transport errors retry: if attempts `a, …, a+j-1` raise and attempt
`a+j` returns, the loop yields the returned value. -/
theorem fetch_tries_of_errors (env : Nat → AttemptEnv) (a n j : Nat)
    (r : Option AttrDict) (hj : j < n)
    (herr : ∀ i, i < j → attempt_once (env (a + i)) = Except.error ())
    (hok : attempt_once (env (a + j)) = Except.ok r) :
    fetch_tries env a n = r := by
  induction n generalizing a j with
  | zero => omega
  | succ m ih =>
    cases j with
    | zero =>
      rw [fetch_tries]
      rw [show a + 0 = a from rfl] at hok
      rw [hok]
    | succ j' =>
      have h0 : attempt_once (env a) = Except.error () := by
        have := herr 0 (by omega)
        simpa using this
      rw [fetch_tries, h0]
      refine ih (a + 1) j' (by omega) (fun i hi => ?_) ?_
      · have := herr (i + 1) (by omega)
        rwa [show a + (i + 1) = a + 1 + i from by omega] at this
      · rwa [show a + (j' + 1) = a + 1 + j' from by omega] at hok

/-- If every attempt raises, the loop exhausts its budget and yields
`none`. -/
theorem fetch_tries_of_all_errors (env : Nat → AttemptEnv) (a n : Nat)
    (herr : ∀ i, i < n → attempt_once (env (a + i)) = Except.error ()) :
    fetch_tries env a n = none := by
  induction n generalizing a with
  | zero => rfl
  | succ m ih =>
    have h0 : attempt_once (env a) = Except.error () := by
      have := herr 0 (by omega)
      simpa using this
    rw [fetch_tries, h0]
    refine ih (a + 1) (fun i hi => ?_)
    have := herr (i + 1) (by omega)
    rwa [show a + (i + 1) = a + 1 + i from by omega] at this

/-! ### Batch driver lemmas -/

theorem process_accession_none (fetch_fn : String → Option AttrDict)
    (col : String) (st : RunState) (acc : String)
    (h : fetch_fn acc = none) :
    process_accession fetch_fn col st acc = { st with failed := st.failed + 1 } := by
  simp [process_accession, h]

theorem process_accession_empty (fetch_fn : String → Option AttrDict)
    (col : String) (st : RunState) (acc : String)
    (h : fetch_fn acc = some []) :
    process_accession fetch_fn col st acc = { st with failed := st.failed + 1 } := by
  simp [process_accession, h]

theorem process_accession_success (fetch_fn : String → Option AttrDict)
    (col : String) (st : RunState) (acc : String) (d : AttrDict)
    (h : fetch_fn acc = some d) (hne : d ≠ []) :
    process_accession fetch_fn col st acc =
      { st with
          all_data := st.all_data ++ [dinsert d col acc],
          successful := st.successful + 1 } := by
  simp [process_accession, h, hne]

theorem foldl_process_all_success (fetch_fn : String → Option AttrDict)
    (col : String) (accs : List String) (st : RunState)
    (h : ∀ acc ∈ accs, ∃ d, fetch_fn acc = some d ∧ d ≠ []) :
    ((accs.foldl (process_accession fetch_fn col) st).all_data.length
        = st.all_data.length + accs.length) ∧
      ((accs.foldl (process_accession fetch_fn col) st).successful
        = st.successful + accs.length) ∧
      (accs.foldl (process_accession fetch_fn col) st).failed = st.failed := by
  induction accs generalizing st with
  | nil => simp
  | cons acc accs ih =>
    obtain ⟨d, hd, hne⟩ := h acc (List.mem_cons_self acc accs)
    rw [List.foldl_cons,
      process_accession_success fetch_fn col st acc d hd hne]
    obtain ⟨h1, h2, h3⟩ := ih _ (fun a ha => h a (List.mem_cons_of_mem _ ha))
    refine ⟨?_, ?_, h3⟩
    · rw [h1]
      simp
      omega
    · rw [h2]
      simp
      omega

theorem foldl_process_keys (fetch_fn : String → Option AttrDict)
    (col : String) (accs : List String) (st : RunState)
    (hfetch : ∀ acc d, fetch_fn acc = some d →
      ∀ k ∈ keysOf d, k ∈ KNOWN_ATTRIBUTES ∨ k = "biosample_accession")
    (hst : ∀ d ∈ st.all_data, ∀ k ∈ keysOf d,
      k ∈ KNOWN_ATTRIBUTES ∨ k = "biosample_accession" ∨ k = col) :
    ∀ d ∈ (accs.foldl (process_accession fetch_fn col) st).all_data,
      ∀ k ∈ keysOf d,
        k ∈ KNOWN_ATTRIBUTES ∨ k = "biosample_accession" ∨ k = col := by
  induction accs generalizing st with
  | nil => exact hst
  | cons acc accs ih =>
    rw [List.foldl_cons]
    refine ih _ ?_
    intro d hd k hk
    revert hd
    unfold process_accession
    cases hf : fetch_fn acc with
    | none => exact fun hd => hst d hd k hk
    | some metadata =>
      by_cases hemp : metadata.isEmpty
      · simp only [if_pos hemp]
        exact fun hd => hst d hd k hk
      · simp only [if_neg hemp, List.mem_append, List.mem_singleton]
        rintro (hd | rfl)
        · exact hst d hd k hk
        · rcases (mem_keysOf_dinsert metadata col acc k).mp hk with rfl | hkm
          · exact Or.inr (Or.inr rfl)
          · rcases hfetch acc metadata hf k hkm with h1 | h1
            · exact Or.inl h1
            · exact Or.inr (Or.inl h1)

/-- Any dict produced by either flavor of the per-accession fetch has
only allow-listed keys or `biosample_accession`. -/
theorem fetch_fn_of_keys (db : Db) (env : String → Nat → AttemptEnv)
    (acc : String) (d : AttrDict) (h : fetch_fn_of db env acc = some d) :
    ∀ k ∈ keysOf d, k ∈ KNOWN_ATTRIBUTES ∨ k = "biosample_accession" := by
  intro k hk
  cases db with
  | assembly =>
    obtain ⟨recs, hr⟩ := fetch_tries_some_fetch (env acc) 1 3 d h
    exact fetch_record_keys_allowed recs d hr k hk
  | nucleotide =>
    simp only [fetch_fn_of, fetch_biosample_from_nucleotide,
      fetch_tries_nucleotide_eq] at h
    obtain ⟨recs, hr⟩ := fetch_tries_some_fetch (env acc) 1 3 d h
    exact fetch_record_keys_allowed recs d hr k hk

/-! ### Table writer lemmas -/

theorem mem_set_add (ks : List String) (k a : String) :
    a ∈ set_add ks k ↔ a = k ∨ a ∈ ks := by
  unfold set_add
  split
  · constructor
    · exact fun h => Or.inr h
    · rintro (rfl | h)
      · assumption
      · exact h
  · simp [List.mem_append, or_comm]

theorem nodup_set_add (ks : List String) (k : String) (h : ks.Nodup) :
    (set_add ks k).Nodup := by
  unfold set_add
  split
  · exact h
  · rw [List.nodup_append]
    exact ⟨h, List.nodup_singleton k,
      by simpa [List.disjoint_singleton] using by assumption⟩

theorem mem_foldl_set_add (l : List String) (acc : List String) (a : String) :
    a ∈ l.foldl set_add acc ↔ a ∈ acc ∨ a ∈ l := by
  induction l generalizing acc with
  | nil => simp
  | cons x xs ih =>
    rw [List.foldl_cons, ih, mem_set_add]
    simp only [List.mem_cons]
    tauto

theorem nodup_foldl_set_add (l : List String) (acc : List String)
    (h : acc.Nodup) : (l.foldl set_add acc).Nodup := by
  induction l generalizing acc with
  | nil => exact h
  | cons x xs ih => exact ih _ (nodup_set_add acc x h)

theorem mem_foldl_rows (data : List AttrDict) (acc : List String)
    (k : String) :
    k ∈ data.foldl (fun ks row => (keysOf row).foldl set_add ks) acc ↔
      k ∈ acc ∨ ∃ row ∈ data, k ∈ keysOf row := by
  induction data generalizing acc with
  | nil => simp
  | cons row rows ih =>
    rw [List.foldl_cons, ih, mem_foldl_set_add]
    simp only [List.exists_mem_cons_iff]
    tauto

theorem mem_all_keys (data : List AttrDict) (k : String) :
    k ∈ all_keys data ↔ ∃ row ∈ data, k ∈ keysOf row := by
  unfold all_keys
  rw [mem_foldl_rows]
  simp

theorem nodup_foldl_rows (data : List AttrDict) (acc : List String)
    (h : acc.Nodup) :
    (data.foldl (fun ks row => (keysOf row).foldl set_add ks) acc).Nodup := by
  induction data generalizing acc with
  | nil => exact h
  | cons row rows ih => exact ih _ (nodup_foldl_set_add _ _ h)

theorem nodup_all_keys (data : List AttrDict) : (all_keys data).Nodup :=
  nodup_foldl_rows data [] List.nodup_nil

theorem sorted_keys_sorted (data : List AttrDict) :
    (sorted_keys data).Sorted (fun a b => a ≤ b) :=
  @List.sorted_insertionSort String (fun a b => a ≤ b) strLeDec
    inferInstance inferInstance (all_keys data)

theorem sorted_keys_perm_all_keys (data : List AttrDict) :
    List.Perm (sorted_keys data) (all_keys data) :=
  @List.perm_insertionSort String (fun a b => a ≤ b) strLeDec (all_keys data)

/-- A name is a column of the table exactly when some row carries it. -/
theorem mem_sorted_keys (data : List AttrDict) (k : String) :
    k ∈ sorted_keys data ↔ ∃ row ∈ data, k ∈ keysOf row := by
  rw [(sorted_keys_perm_all_keys data).mem_iff, mem_all_keys]

/-- The sorted header is invariant under reordering the rows. -/
theorem sorted_keys_perm_invariant (data data2 : List AttrDict)
    (h : List.Perm data data2) : sorted_keys data2 = sorted_keys data := by
  have hmem : ∀ a, a ∈ all_keys data ↔ a ∈ all_keys data2 := by
    intro a
    rw [mem_all_keys, mem_all_keys]
    constructor
    · rintro ⟨row, hr, hk⟩
      exact ⟨row, h.mem_iff.mp hr, hk⟩
    · rintro ⟨row, hr, hk⟩
      exact ⟨row, h.mem_iff.mpr hr, hk⟩
  have hperm : List.Perm (all_keys data) (all_keys data2) :=
    (List.perm_ext_iff_of_nodup (nodup_all_keys data)
      (nodup_all_keys data2)).mpr hmem
  exact List.eq_of_perm_of_sorted
    ((sorted_keys_perm_all_keys data2).trans
      (hperm.symm.trans (sorted_keys_perm_all_keys data).symm))
    (sorted_keys_sorted data2) (sorted_keys_sorted data)

theorem write_tsv_nil : write_tsv [] = none := rfl

theorem write_tsv_of_ne_nil (data : List AttrDict) (h : data ≠ []) :
    write_tsv data = some (sorted_keys data,
      data.map fun row =>
        (sorted_keys data).map fun k => (dlookup row k).getD "") := by
  unfold write_tsv
  rw [if_neg (by simpa using h)]

/-! ### Cross-cutting helpers -/

/-- When the very first attempt returns (no transport error), both fetch
flavors yield exactly its value. -/
theorem fetch_fn_of_first_ok (db : Db) (env : String → Nat → AttemptEnv)
    (acc : String) (r : Option AttrDict)
    (h : attempt_once (env acc 1) = Except.ok r) :
    fetch_fn_of db env acc = r := by
  cases db <;>
    simp only [fetch_fn_of, fetch_biosample_from_assembly,
      fetch_biosample_from_nucleotide, fetch_tries_nucleotide_eq] <;>
    exact fetch_tries_of_ok (env acc) 1 3 r (by omega) h

/-- The attribute loop drops a batch of attributes none of which pass the
filter. -/
theorem foldl_copyAttr_unchanged (attrs : List BioAttr) (d0 : AttrDict)
    (h : ∀ a ∈ attrs, ¬ attr_allowed a) : attrs.foldl copyAttr d0 = d0 := by
  induction attrs generalizing d0 with
  | nil => rfl
  | cons a as ih =>
    rw [List.foldl_cons]
    rw [show copyAttr d0 a = d0 from
      by simp [copyAttr, h a (List.mem_cons_self a as)]]
    exact ih d0 (fun b hb => h b (List.mem_cons_of_mem a hb))

/-- Dropping one column from a row (used to compare the two `--db`
flavors after removing their accession-tag columns). -/
def erase_col (d : AttrDict) (k : String) : AttrDict :=
  d.filter (fun p => !(p.1 == k))

theorem erase_col_dinsert (d : AttrDict) (k v : String)
    (h : k ∉ keysOf d) : erase_col (dinsert d k v) k = d := by
  rw [dinsert_of_not_mem d k v h]
  unfold erase_col
  rw [List.filter_append]
  have h1 : d.filter (fun p => !(p.1 == k)) = d := by
    rw [List.filter_eq_self]
    intro p hp
    have : p.1 ≠ k := fun he => h (he ▸ List.mem_map_of_mem Prod.fst hp)
    simpa using this
  have h2 : List.filter (fun p => !(p.1 == k)) [(k, v)] = [] := by
    simp
  rw [h1, h2, List.append_nil]

/-- Keys of every run-batch row are allow-listed names,
`biosample_accession`, or the run's accession-tag column. -/
theorem run_batch_keys (db : Db) (env : String → Nat → AttemptEnv)
    (accessions : List String) :
    ∀ d ∈ (run_batch (fetch_fn_of db env) (accession_col_of db)
        accessions).all_data,
      ∀ k ∈ keysOf d,
        k ∈ KNOWN_ATTRIBUTES ∨ k = "biosample_accession" ∨
          k = accession_col_of db := by
  unfold run_batch
  exact foldl_process_keys _ _ accessions ⟨[], 0, 0⟩
    (fetch_fn_of_keys db env) (by simp)

/-- The relation between a nucleotide-flavor run state and an
assembly-flavor run state over the same responses: equal counts and equal
rows once each flavor's tag column is removed. -/
def StripRel (stN stA : RunState) : Prop :=
  stN.successful = stA.successful ∧ stN.failed = stA.failed ∧
    stN.all_data.map (fun d => erase_col d "nucleotide_accession") =
      stA.all_data.map (fun d => erase_col d "assembly_accession")

theorem foldl_process_strip (fetch_fn : String → Option AttrDict)
    (accs : List String) (stN stA : RunState)
    (hfetch : ∀ acc d, fetch_fn acc = some d →
      ∀ k ∈ keysOf d, k ∈ KNOWN_ATTRIBUTES ∨ k = "biosample_accession")
    (hR : StripRel stN stA) :
    StripRel (accs.foldl (process_accession fetch_fn "nucleotide_accession") stN)
      (accs.foldl (process_accession fetch_fn "assembly_accession") stA) := by
  induction accs generalizing stN stA with
  | nil => exact hR
  | cons acc accs ih =>
    rw [List.foldl_cons, List.foldl_cons]
    refine ih _ _ ?_
    obtain ⟨h1, h2, h3⟩ := hR
    cases hf : fetch_fn acc with
    | none =>
      rw [process_accession_none fetch_fn _ stN acc hf,
        process_accession_none fetch_fn _ stA acc hf]
      exact ⟨h1, by simp [h2], h3⟩
    | some metadata =>
      by_cases hemp : metadata = []
      · subst hemp
        rw [process_accession_empty fetch_fn _ stN acc hf,
          process_accession_empty fetch_fn _ stA acc hf]
        exact ⟨h1, by simp [h2], h3⟩
      · rw [process_accession_success fetch_fn _ stN acc metadata hf hemp,
          process_accession_success fetch_fn _ stA acc metadata hf hemp]
        refine ⟨by simp [h1], h2, ?_⟩
        have hna : "nucleotide_accession" ∉ keysOf metadata := by
          intro hmem
          rcases hfetch acc metadata hf _ hmem with hin | hba
          · exact absurd hin (by decide)
          · exact absurd hba (by decide)
        have haa : "assembly_accession" ∉ keysOf metadata := by
          intro hmem
          rcases hfetch acc metadata hf _ hmem with hin | hba
          · exact absurd hin (by decide)
          · exact absurd hba (by decide)
        show (stN.all_data ++ [dinsert metadata "nucleotide_accession" acc]).map
            (fun d => erase_col d "nucleotide_accession") =
          (stA.all_data ++ [dinsert metadata "assembly_accession" acc]).map
            (fun d => erase_col d "assembly_accession")
        simp only [List.map_append, List.map_cons, List.map_nil]
        rw [h3, erase_col_dinsert metadata _ acc hna,
          erase_col_dinsert metadata _ acc haa]

/-- The last attribute named `biosample_accession` in an attribute list,
if any. -/
def last_biosample_override (attrs : List BioAttr) : Option BioAttr :=
  attrs.reverse.find? (fun a => attr_name a == "biosample_accession")

/-! ### Concrete environments used to witness the claims -/

/-- Responses in which every stage succeeds and the record carries one
allow-listed attribute (`strain`) and one non-allow-listed one. -/
def envAllOk : Nat → AttemptEnv := fun _ =>
  { esearch := Except.ok ⟨["1"]⟩,
    elink := fun _ => Except.ok [⟨[⟨[⟨"7"⟩]⟩]⟩],
    efetch := fun _ => Except.ok
      [⟨some "SAMN1",
        some [⟨some "strain", some "K12"⟩, ⟨some "bogus", some "x"⟩]⟩] }

/-- Responses in which every stage succeeds but the fetched record has no
`Accession` field and no allow-listed attribute. -/
def envNoData : Nat → AttemptEnv := fun _ =>
  { esearch := Except.ok ⟨["1"]⟩,
    elink := fun _ => Except.ok [⟨[⟨[⟨"7"⟩]⟩]⟩],
    efetch := fun _ => Except.ok [⟨none, some [⟨some "color", some "red"⟩]⟩] }

/-- Responses whose search stage returns an empty id list. -/
def envSearchEmpty : Nat → AttemptEnv := fun _ =>
  { esearch := Except.ok ⟨[]⟩,
    elink := fun _ => Except.error (),
    efetch := fun _ => Except.error () }

/-- Responses in which every call raises a transport error. -/
def envAllError : Nat → AttemptEnv := fun _ =>
  { esearch := Except.error (),
    elink := fun _ => Except.error (),
    efetch := fun _ => Except.error () }

/-- Responses that raise on attempts 1 and 2 and succeed on attempt 3. -/
def envRetryThird : Nat → AttemptEnv := fun n =>
  if n ≤ 2 then envAllError n else envAllOk n

/-! ### The claims -/

/-- C2: every Sample Record appended to the Result Set by any run has
keys inside the allow-list united with the three accession keys, and
consequently every column of the written table is in that same set. -/
theorem claim_C2 (db : Db) (env : String → Nat → AttemptEnv)
    (accessions : List String) (d : AttrDict) (k : String)
    (hd : d ∈ (run_batch (fetch_fn_of db env) (accession_col_of db)
      accessions).all_data)
    (hk : k ∈ keysOf d) :
    (k ∈ KNOWN_ATTRIBUTES ∨
      k ∈ ["biosample_accession", "assembly_accession",
        "nucleotide_accession"]) ∧
    (∀ cols rows k2,
      write_tsv (run_batch (fetch_fn_of db env) (accession_col_of db)
          accessions).all_data = some (cols, rows) →
        k2 ∈ cols →
        k2 ∈ KNOWN_ATTRIBUTES ∨
          k2 ∈ ["biosample_accession", "assembly_accession",
            "nucleotide_accession"]) := by
  have hmain : ∀ d2 ∈ (run_batch (fetch_fn_of db env) (accession_col_of db)
      accessions).all_data, ∀ k2 ∈ keysOf d2,
      k2 ∈ KNOWN_ATTRIBUTES ∨
        k2 ∈ ["biosample_accession", "assembly_accession",
          "nucleotide_accession"] := by
    intro d2 hd2 k2 hk2
    rcases run_batch_keys db env accessions d2 hd2 k2 hk2 with h | h | h
    · exact Or.inl h
    · exact Or.inr (by simp [h])
    · cases db <;> simp_all [accession_col_of]
  refine ⟨hmain d hd k hk, ?_⟩
  intro cols rows k2 hw hk2
  have hne : (run_batch (fetch_fn_of db env) (accession_col_of db)
      accessions).all_data ≠ [] := by
    intro he
    rw [he, write_tsv_nil] at hw
    exact Option.noConfusion hw
  rw [write_tsv_of_ne_nil _ hne] at hw
  injection hw with hw
  have hcols : cols = sorted_keys (run_batch (fetch_fn_of db env)
      (accession_col_of db) accessions).all_data :=
    (congrArg Prod.fst hw).symm
  subst hcols
  obtain ⟨row, hrow, hkrow⟩ := (mem_sorted_keys _ k2).mp hk2
  exact hmain row hrow k2 hkrow

/-- C2 witness: a concrete assembly run whose single record carries the
key `strain`, which is allow-listed. -/
theorem claim_C2_witness :
    ([("biosample_accession", "SAMN1"), ("strain", "K12"),
        ("assembly_accession", "A")] ∈
      (run_batch (fetch_fn_of Db.assembly (fun _ => envAllOk))
        (accession_col_of Db.assembly) ["A"]).all_data) ∧
    ("strain" ∈ keysOf [("biosample_accession", "SAMN1"),
      ("strain", "K12"), ("assembly_accession", "A")]) ∧
    (("strain" ∈ KNOWN_ATTRIBUTES ∨
      "strain" ∈ ["biosample_accession", "assembly_accession",
        "nucleotide_accession"]) ∧
    (∀ cols rows k2,
      write_tsv (run_batch (fetch_fn_of Db.assembly (fun _ => envAllOk))
          (accession_col_of Db.assembly) ["A"]).all_data =
            some (cols, rows) →
        k2 ∈ cols →
        k2 ∈ KNOWN_ATTRIBUTES ∨
          k2 ∈ ["biosample_accession", "assembly_accession",
            "nucleotide_accession"])) :=
  ⟨by decide, by decide,
    claim_C2 Db.assembly (fun _ => envAllOk) ["A"]
      [("biosample_accession", "SAMN1"), ("strain", "K12"),
        ("assembly_accession", "A")] "strain"
      (by decide) (by decide)⟩

/-- C1 counterexample: with one accession, the search returns an id, a
cross-reference link exists, and the fetched record set is non-empty
(every resolve and fetch step succeeds in the claim's sense), yet the
Result Set stays empty and no table is written, because the fetched
record filters down to an empty mapping, which the driver's truthiness
test counts as a failure. -/
theorem claim_C1_counterexample :
    ((envNoData 1).esearch = Except.ok ⟨["1"]⟩) ∧
    ((envNoData 1).elink "1" = Except.ok [⟨[⟨[⟨"7"⟩]⟩]⟩]) ∧
    ((envNoData 1).efetch "7" =
      Except.ok [⟨none, some [⟨some "color", some "red"⟩]⟩]) ∧
    attempt_once (envNoData 1) = Except.ok (some []) ∧
    ¬((run_batch (fetch_fn_of Db.assembly (fun _ => envNoData))
        (accession_col_of Db.assembly) ["GCA_1"]).all_data.length =
      ["GCA_1"].length) ∧
    write_tsv (run_batch (fetch_fn_of Db.assembly (fun _ => envNoData))
        (accession_col_of Db.assembly) ["GCA_1"]).all_data = none :=
  ⟨rfl, rfl, rfl, rfl, by decide, rfl⟩

/-- C1 (amended): for every accession list in which every accession's
first attempt succeeds with a *non-empty* filtered attribute mapping,
the Result Set has length N, the run counts N successes and 0 failures,
and (when N is positive) the written table has exactly N data rows after
its header row. -/
theorem claim_C1 (db : Db) (env : String → Nat → AttemptEnv)
    (accessions : List String)
    (h : ∀ acc ∈ accessions, ∃ d,
      attempt_once (env acc 1) = Except.ok (some d) ∧ d ≠ []) :
    ((run_batch (fetch_fn_of db env) (accession_col_of db)
        accessions).all_data.length = accessions.length) ∧
    ((run_batch (fetch_fn_of db env) (accession_col_of db)
        accessions).successful = accessions.length) ∧
    ((run_batch (fetch_fn_of db env) (accession_col_of db)
        accessions).failed = 0) ∧
    (accessions ≠ [] → ∃ cols rows,
      write_tsv (run_batch (fetch_fn_of db env) (accession_col_of db)
          accessions).all_data = some (cols, rows) ∧
        rows.length = accessions.length) := by
  have hf : ∀ acc ∈ accessions, ∃ d,
      fetch_fn_of db env acc = some d ∧ d ≠ [] := by
    intro acc ha
    obtain ⟨d, h1, h2⟩ := h acc ha
    exact ⟨d, fetch_fn_of_first_ok db env acc (some d) h1, h2⟩
  obtain ⟨h1, h2, h3⟩ := foldl_process_all_success (fetch_fn_of db env)
    (accession_col_of db) accessions ⟨[], 0, 0⟩ hf
  have hlen : (run_batch (fetch_fn_of db env) (accession_col_of db)
      accessions).all_data.length = accessions.length := by
    unfold run_batch
    simpa using h1
  refine ⟨hlen, by unfold run_batch; simpa using h2,
    by unfold run_batch; simpa using h3, ?_⟩
  intro hne
  have hdata : (run_batch (fetch_fn_of db env) (accession_col_of db)
      accessions).all_data ≠ [] := by
    intro he
    rw [he] at hlen
    exact hne (List.length_eq_zero.mp hlen.symm)
  refine ⟨_, _, write_tsv_of_ne_nil _ hdata, ?_⟩
  rw [List.length_map]
  exact hlen

/-- C1 witness: a two-accession run in which both attempts succeed with a
non-empty mapping. -/
theorem claim_C1_witness :
    (∀ acc ∈ ["GCA_1", "GCA_2"], ∃ d,
      attempt_once (envAllOk 1) = Except.ok (some d) ∧ d ≠ []) ∧
    (((run_batch (fetch_fn_of Db.assembly (fun _ => envAllOk))
        (accession_col_of Db.assembly)
        ["GCA_1", "GCA_2"]).all_data.length = 2) ∧
      ((run_batch (fetch_fn_of Db.assembly (fun _ => envAllOk))
        (accession_col_of Db.assembly)
        ["GCA_1", "GCA_2"]).successful = 2) ∧
      ((run_batch (fetch_fn_of Db.assembly (fun _ => envAllOk))
        (accession_col_of Db.assembly) ["GCA_1", "GCA_2"]).failed = 0) ∧
      (["GCA_1", "GCA_2"] ≠ ([] : List String) → ∃ cols rows,
        write_tsv (run_batch (fetch_fn_of Db.assembly (fun _ => envAllOk))
            (accession_col_of Db.assembly) ["GCA_1", "GCA_2"]).all_data =
          some (cols, rows) ∧ rows.length = 2)) :=
  ⟨fun _ _ => ⟨[("biosample_accession", "SAMN1"), ("strain", "K12")],
      rfl, by decide⟩,
    claim_C1 Db.assembly (fun _ => envAllOk) ["GCA_1", "GCA_2"]
      (fun _ _ => ⟨[("biosample_accession", "SAMN1"), ("strain", "K12")],
        rfl, by decide⟩)⟩

/-- C3: a defined not-found outcome on the first attempt (search empty,
no link, or empty record set, i.e. the attempt returns `none` rather than
raising) is terminal: the loop result is `none` no matter what later
attempts would answer (so no retry is consulted), the driver counts the
accession as failed, and the Result Set is unchanged (zero rows). -/
theorem claim_C3 (env : Nat → AttemptEnv) (max_retries : Nat)
    (fetch_fn : String → Option AttrDict) (col acc : String)
    (st : RunState)
    (h1 : attempt_once (env 1) = Except.ok none)
    (hmr : 1 ≤ max_retries)
    (hfe : fetch_fn acc = none) :
    (∀ env2 : Nat → AttemptEnv, env2 1 = env 1 →
      fetch_biosample_from_assembly env2 max_retries = none) ∧
    process_accession fetch_fn col st acc =
      { st with failed := st.failed + 1 } := by
  constructor
  · intro env2 he
    unfold fetch_biosample_from_assembly
    exact fetch_tries_of_ok env2 1 max_retries none (by omega)
      (by rw [he]; exact h1)
  · exact process_accession_none fetch_fn col st acc hfe

/-- C3 witness: a search that returns zero ids, with default
`max_retries = 3`. -/
theorem claim_C3_witness :
    (attempt_once (envSearchEmpty 1) = Except.ok none) ∧
    (1 ≤ 3) ∧
    ((fun _ : String =>
        fetch_biosample_from_assembly envSearchEmpty 3) "GCA_1" = none) ∧
    ((∀ env2 : Nat → AttemptEnv, env2 1 = envSearchEmpty 1 →
        fetch_biosample_from_assembly env2 3 = none) ∧
      process_accession
          (fun _ : String => fetch_biosample_from_assembly envSearchEmpty 3)
          "assembly_accession" ⟨[], 0, 0⟩ "GCA_1" =
        { RunState.mk [] 0 0 with failed := 0 + 1 }) :=
  ⟨rfl, by omega, rfl,
    claim_C3 envSearchEmpty 3
      (fun _ : String => fetch_biosample_from_assembly envSearchEmpty 3)
      "assembly_accession" "GCA_1" ⟨[], 0, 0⟩
      rfl (by omega) rfl⟩

/-- C4: transport errors retry from the start of the per-accession
sequence, up to `max_retries` attempts.  An accession whose attempts
raise `j - 1 < max_retries` times and then return a non-empty dict is
counted successful and its tagged record is appended; an accession all of
whose `max_retries` attempts raise is counted failed and contributes
nothing. -/
theorem claim_C4 (env env2 : Nat → AttemptEnv) (j max_retries : Nat)
    (d : AttrDict) (col acc : String) (st : RunState)
    (hj1 : 1 ≤ j) (hj2 : j ≤ max_retries)
    (herr : ∀ k, 1 ≤ k → k < j → attempt_once (env k) = Except.error ())
    (hok : attempt_once (env j) = Except.ok (some d)) (hd : d ≠ [])
    (herr2 : ∀ k, 1 ≤ k → k ≤ max_retries →
      attempt_once (env2 k) = Except.error ()) :
    fetch_biosample_from_assembly env max_retries = some d ∧
    process_accession (fun _ => fetch_biosample_from_assembly env max_retries)
        col st acc =
      { st with
          all_data := st.all_data ++ [dinsert d col acc],
          successful := st.successful + 1 } ∧
    fetch_biosample_from_assembly env2 max_retries = none ∧
    process_accession
        (fun _ => fetch_biosample_from_assembly env2 max_retries)
        col st acc =
      { st with failed := st.failed + 1 } := by
  have hsucc : fetch_biosample_from_assembly env max_retries = some d := by
    unfold fetch_biosample_from_assembly
    refine fetch_tries_of_errors env 1 max_retries (j - 1) (some d)
      (by omega) (fun i hi => ?_) ?_
    · exact herr (1 + i) (by omega) (by omega)
    · rw [show 1 + (j - 1) = j from by omega]
      exact hok
  have hfail : fetch_biosample_from_assembly env2 max_retries = none := by
    unfold fetch_biosample_from_assembly
    exact fetch_tries_of_all_errors env2 1 max_retries
      (fun i hi => herr2 (1 + i) (by omega) (by omega))
  exact ⟨hsucc,
    process_accession_success _ col st acc d hsucc hd,
    hfail,
    process_accession_none _ col st acc hfail⟩

/-- C4 witness: attempts 1 and 2 raise, attempt 3 succeeds (counted
successful, record appended); a second environment raises on all three
attempts (counted failed). -/
theorem claim_C4_witness :
    (1 ≤ 3 ∧ 3 ≤ 3) ∧
    (∀ k, 1 ≤ k → k < 3 →
      attempt_once (envRetryThird k) = Except.error ()) ∧
    (attempt_once (envRetryThird 3) =
      Except.ok (some [("biosample_accession", "SAMN1"),
        ("strain", "K12")])) ∧
    (∀ k, 1 ≤ k → k ≤ 3 →
      attempt_once (envAllError k) = Except.error ()) ∧
    (fetch_biosample_from_assembly envRetryThird 3 =
        some [("biosample_accession", "SAMN1"), ("strain", "K12")] ∧
      process_accession
          (fun _ => fetch_biosample_from_assembly envRetryThird 3)
          "assembly_accession" ⟨[], 0, 0⟩ "GCA_000000000.1" =
        { RunState.mk [] 0 0 with
            all_data := [] ++ [dinsert
              [("biosample_accession", "SAMN1"), ("strain", "K12")]
              "assembly_accession" "GCA_000000000.1"],
            successful := 0 + 1 } ∧
      fetch_biosample_from_assembly envAllError 3 = none ∧
      process_accession
          (fun _ => fetch_biosample_from_assembly envAllError 3)
          "assembly_accession" ⟨[], 0, 0⟩ "GCA_000000000.1" =
        { RunState.mk [] 0 0 with failed := 0 + 1 }) :=
  ⟨⟨by omega, by omega⟩,
    fun k hk1 hk2 => by
      have : k = 1 ∨ k = 2 := by omega
      rcases this with rfl | rfl <;> rfl,
    rfl,
    fun k hk1 hk2 => by
      have : k = 1 ∨ k = 2 ∨ k = 3 := by omega
      rcases this with rfl | rfl | rfl <;> rfl,
    claim_C4 envRetryThird envAllError 3 3
      [("biosample_accession", "SAMN1"), ("strain", "K12")]
      "assembly_accession" "GCA_000000000.1" ⟨[], 0, 0⟩
      (by omega) (by omega)
      (fun k hk1 hk2 => by
        have : k = 1 ∨ k = 2 := by omega
        rcases this with rfl | rfl <;> rfl)
      rfl (by decide)
      (fun k hk1 hk2 => by
        have : k = 1 ∨ k = 2 ∨ k = 3 := by omega
        rcases this with rfl | rfl | rfl <;> rfl)⟩

/-- C5: the table writer writes nothing for an empty Result Set;
otherwise it emits the lexicographically sorted union of all attribute
names as the header — the same header for any reordering of the records —
followed by one row per record in Result Set order with absent attributes
rendered as the empty field. -/
theorem claim_C5 (data : List AttrDict) (hne : data ≠ []) :
    write_tsv ([] : List AttrDict) = none ∧
    write_tsv data = some (sorted_keys data,
      data.map fun row =>
        (sorted_keys data).map fun k => (dlookup row k).getD "") ∧
    (sorted_keys data).Sorted (fun a b => a ≤ b) ∧
    (∀ k, k ∈ sorted_keys data ↔ ∃ row ∈ data, k ∈ keysOf row) ∧
    (∀ data2, List.Perm data data2 → sorted_keys data2 = sorted_keys data) :=
  ⟨write_tsv_nil, write_tsv_of_ne_nil data hne, sorted_keys_sorted data,
    fun k => mem_sorted_keys data k,
    fun data2 h => sorted_keys_perm_invariant data data2 h⟩

/-- C5 witness: a two-row Result Set with disjoint keys. -/
theorem claim_C5_witness :
    ([[("b", "1")], [("a", "2")]] ≠ ([] : List AttrDict)) ∧
    (write_tsv ([] : List AttrDict) = none ∧
      write_tsv [[("b", "1")], [("a", "2")]] =
        some (sorted_keys [[("b", "1")], [("a", "2")]],
          [[("b", "1")], [("a", "2")]].map fun row =>
            (sorted_keys [[("b", "1")], [("a", "2")]]).map fun k =>
              (dlookup row k).getD "") ∧
      (sorted_keys [[("b", "1")], [("a", "2")]]).Sorted
        (fun a b => a ≤ b) ∧
      (∀ k, k ∈ sorted_keys [[("b", "1")], [("a", "2")]] ↔
        ∃ row ∈ [[("b", "1")], [("a", "2")]], k ∈ keysOf row) ∧
      (∀ data2, List.Perm [[("b", "1")], [("a", "2")]] data2 →
        sorted_keys data2 = sorted_keys [[("b", "1")], [("a", "2")]])) :=
  ⟨by decide, claim_C5 [[("b", "1")], [("a", "2")]] (by decide)⟩

/-- C6: on a non-empty response the fetcher returns a mapping (even when
only `biosample_accession` survives); a key is present exactly when it is
the `biosample_accession` extracted from the record's `Accession` field
or the name of an attribute passing the allow-list filter; a missing
attribute name is treated as the literal `unknown`, which never appears
as a key. -/
theorem claim_C6 (r : BioSampleRecord) (rest : List BioSampleRecord) :
    (∀ a : BioAttr, a.attribute_name = none → attr_name a = "unknown") ∧
    ∃ d, fetch_biosample_record (r :: rest) = some d ∧
      (∀ k, k ∈ keysOf d ↔
        ((k = "biosample_accession" ∧ r.Accession.isSome) ∨
          ∃ a ∈ attrsOf r, attr_allowed a ∧ attr_name a = k)) ∧
      "unknown" ∉ keysOf d := by
  refine ⟨fun a ha => by simp [attr_name, ha],
    _, fetch_biosample_record_cons r rest,
    mem_keysOf_fetch_record r rest _ (fetch_biosample_record_cons r rest),
    ?_⟩
  intro hk
  rcases (mem_keysOf_fetch_record r rest _
      (fetch_biosample_record_cons r rest) "unknown").mp hk with
    ⟨h1, _⟩ | ⟨a, _, hall, hn⟩
  · exact absurd h1 (by decide)
  · have hall2 : attr_name a ∈ KNOWN_ATTRIBUTES ∨
        attr_name a = "biosample_accession" := hall
    rw [hn] at hall2
    rcases hall2 with h | h
    · exact absurd h (by decide)
    · exact absurd h (by decide)

/-- C7: an unopenable input file exits with status 1 before any accession
is processed; a readable input file always reaches the summary and exits
with status 0, whatever the per-accession outcomes were. -/
theorem claim_C7 (db : Db) (env : String → Nat → AttemptEnv)
    (lines : List String) :
    (main_model none db env).exitCode = 1 ∧
    (main_model none db env).totalProcessed = 0 ∧
    (main_model (some lines) db env).exitCode = 0 :=
  ⟨rfl, rfl, rfl⟩

/-- C8: with identical remote responses, a nucleotide run differs from an
assembly run only in the resolver entry point invoked (the duplicated
loop computes the same function) and in the accession-tag column: the
success and failure counts agree, and the accumulated records agree once
each run's tag column is removed. -/
theorem claim_C8 (env : String → Nat → AttemptEnv)
    (accessions : List String) (e : Nat → AttemptEnv) (mr : Nat) :
    fetch_biosample_from_nucleotide e mr =
      fetch_biosample_from_assembly e mr ∧
    (run_batch (fetch_fn_of Db.nucleotide env)
        (accession_col_of Db.nucleotide) accessions).successful =
      (run_batch (fetch_fn_of Db.assembly env)
        (accession_col_of Db.assembly) accessions).successful ∧
    (run_batch (fetch_fn_of Db.nucleotide env)
        (accession_col_of Db.nucleotide) accessions).failed =
      (run_batch (fetch_fn_of Db.assembly env)
        (accession_col_of Db.assembly) accessions).failed ∧
    (run_batch (fetch_fn_of Db.nucleotide env)
        (accession_col_of Db.nucleotide) accessions).all_data.map
        (fun d => erase_col d "nucleotide_accession") =
      (run_batch (fetch_fn_of Db.assembly env)
        (accession_col_of Db.assembly) accessions).all_data.map
        (fun d => erase_col d "assembly_accession") := by
  have hfn : fetch_fn_of Db.nucleotide env = fetch_fn_of Db.assembly env := by
    funext acc
    simp [fetch_fn_of, fetch_biosample_from_nucleotide,
      fetch_biosample_from_assembly, fetch_tries_nucleotide_eq]
  have hR := foldl_process_strip (fetch_fn_of Db.assembly env) accessions
    ⟨[], 0, 0⟩ ⟨[], 0, 0⟩ (fetch_fn_of_keys Db.assembly env)
    ⟨rfl, rfl, rfl⟩
  refine ⟨?_, ?_, ?_, ?_⟩
  · unfold fetch_biosample_from_nucleotide fetch_biosample_from_assembly
    exact fetch_tries_nucleotide_eq e 1 mr
  · show (run_batch (fetch_fn_of Db.nucleotide env) "nucleotide_accession"
        accessions).successful = _
    unfold run_batch
    rw [hfn]
    exact hR.1
  · show (run_batch (fetch_fn_of Db.nucleotide env) "nucleotide_accession"
        accessions).failed = _
    unfold run_batch
    rw [hfn]
    exact hR.2.1
  · show (run_batch (fetch_fn_of Db.nucleotide env) "nucleotide_accession"
        accessions).all_data.map _ = _
    unfold run_batch
    rw [hfn]
    exact hR.2.2

/-- C9: a response containing neither an `Accession` field nor any
attribute passing the allow-list yields the empty mapping from the
fetcher, which the driver's truthiness test then counts as a failure with
nothing appended — although no stage reported not-found and nothing
raised. -/
theorem claim_C9 (r : BioSampleRecord) (rest : List BioSampleRecord)
    (env : Nat → AttemptEnv) (max_retries : Nat) (col acc : String)
    (st : RunState)
    (hacc : r.Accession = none)
    (hattrs : ∀ a ∈ attrsOf r, ¬ attr_allowed a)
    (henv : attempt_once (env 1) =
      Except.ok (fetch_biosample_record (r :: rest)))
    (hmr : 1 ≤ max_retries) :
    fetch_biosample_record (r :: rest) = some [] ∧
    fetch_biosample_from_assembly env max_retries = some [] ∧
    process_accession
        (fun _ => fetch_biosample_from_assembly env max_retries)
        col st acc =
      { st with failed := st.failed + 1 } := by
  have hfetch : fetch_biosample_record (r :: rest) = some [] := by
    rw [fetch_biosample_record_cons,
      foldl_copyAttr_unchanged (attrsOf r) (baseOf r) hattrs,
      show baseOf r = [] from by simp [baseOf, hacc]]
  have hloop : fetch_biosample_from_assembly env max_retries = some [] := by
    unfold fetch_biosample_from_assembly
    exact fetch_tries_of_ok env 1 max_retries (some []) (by omega)
      (hfetch ▸ henv)
  exact ⟨hfetch, hloop, process_accession_empty _ col st acc hloop⟩

/-- C9 witness: a record with no `Accession` and a single non-allow-listed
attribute, reached through fully successful lookups. -/
theorem claim_C9_witness :
    ((⟨none, some [⟨some "color", some "red"⟩]⟩ :
        BioSampleRecord).Accession = none) ∧
    (∀ a ∈ attrsOf ⟨none, some [⟨some "color", some "red"⟩]⟩,
      ¬ attr_allowed a) ∧
    (attempt_once (envNoData 1) = Except.ok (fetch_biosample_record
      [⟨none, some [⟨some "color", some "red"⟩]⟩])) ∧
    (fetch_biosample_record [⟨none, some [⟨some "color", some "red"⟩]⟩] =
        some [] ∧
      fetch_biosample_from_assembly envNoData 3 = some [] ∧
      process_accession
          (fun _ => fetch_biosample_from_assembly envNoData 3)
          "assembly_accession" ⟨[], 0, 0⟩ "GCA_1" =
        { RunState.mk [] 0 0 with failed := 0 + 1 }) :=
  ⟨rfl, by decide, rfl,
    claim_C9 ⟨none, some [⟨some "color", some "red"⟩]⟩ [] envNoData 3
      "assembly_accession" "GCA_1" ⟨[], 0, 0⟩
      rfl (by decide) rfl (by omega)⟩

/-- C10: when the response's attribute list contains entries literally
named `biosample_accession`, the fetcher's `biosample_accession` value is
the content of the last such entry, regardless of the record's
`Accession` field (whose extracted value it overwrites). -/
theorem claim_C10 (r : BioSampleRecord) (rest : List BioSampleRecord)
    (attrs : List BioAttr) (a : BioAttr)
    (hattrs : r.Attributes = some attrs)
    (hlast : last_biosample_override attrs = some a) :
    ∃ d, fetch_biosample_record (r :: rest) = some d ∧
      dlookup d "biosample_accession" = some (attr_value a) := by
  refine ⟨_, fetch_biosample_record_cons r rest, ?_⟩
  have hpred : (fun b => decide (attr_allowed b) &&
      (attr_name b == "biosample_accession")) =
      (fun b => attr_name b == "biosample_accession") := by
    funext b
    by_cases h : attr_name b = "biosample_accession"
    · simp [h, attr_allowed]
    · simp [h]
  rw [show attrsOf r = attrs from by simp [attrsOf, hattrs],
    dlookup_copyAttr_foldl, hpred]
  rw [show attrs.reverse.find?
      (fun b => attr_name b == "biosample_accession") = some a from hlast]

/-- C10 witness: two `biosample_accession` attributes override the
record's `Accession` field `OLD`; the later one (`NEW2`) wins. -/
theorem claim_C10_witness :
    ((⟨some "OLD", some [⟨some "biosample_accession", some "NEW1"⟩,
        ⟨some "biosample_accession", some "NEW2"⟩]⟩ :
      BioSampleRecord).Attributes =
        some [⟨some "biosample_accession", some "NEW1"⟩,
          ⟨some "biosample_accession", some "NEW2"⟩]) ∧
    (last_biosample_override [⟨some "biosample_accession", some "NEW1"⟩,
        ⟨some "biosample_accession", some "NEW2"⟩] =
      some ⟨some "biosample_accession", some "NEW2"⟩) ∧
    (∃ d, fetch_biosample_record
        [⟨some "OLD", some [⟨some "biosample_accession", some "NEW1"⟩,
          ⟨some "biosample_accession", some "NEW2"⟩]⟩] = some d ∧
      dlookup d "biosample_accession" =
        some (attr_value ⟨some "biosample_accession", some "NEW2"⟩)) :=
  ⟨rfl, rfl,
    claim_C10 ⟨some "OLD", some [⟨some "biosample_accession", some "NEW1"⟩,
        ⟨some "biosample_accession", some "NEW2"⟩]⟩ []
      [⟨some "biosample_accession", some "NEW1"⟩,
        ⟨some "biosample_accession", some "NEW2"⟩]
      ⟨some "biosample_accession", some "NEW2"⟩ rfl rfl⟩

end BioFetch
